import Mathlib

/-!
Verification of the chat API pipeline in `src/api/chat.py`.

Strings are modelled as `List Char`.  Each definition is a direct
translation of the corresponding Python code: the pydantic validator
`ChatRequest.validate_message`, the module-level configuration resolver
producing `SUPABASE_DB_URL`, the memoized `initialize_team`, and the
request handler `chat_handler` (tag parsing, tag cleanup, history
formatting, persistence inserts, response shape).  External services
(the Groq model call, the Supabase store, the vector database) are
parameters of the embedding: the model call is a function from the
prompt to either a response text or a raised exception, the store's
query result is an input list, and inserts are recorded in an output
list.
-/

namespace ChatApi

/-- Decidable equality for `Except`, used to evaluate the embedding on
concrete inputs. -/
instance {ε α : Type} [DecidableEq ε] [DecidableEq α] : DecidableEq (Except ε α) := fun x y =>
  match x, y with
  | Except.ok a, Except.ok b =>
      decidable_of_iff (a = b) ⟨congrArg Except.ok, fun h => by injection h⟩
  | Except.error a, Except.error b =>
      decidable_of_iff (a = b) ⟨congrArg Except.error, fun h => by injection h⟩
  | Except.ok _, Except.error _ => isFalse (fun h => Except.noConfusion h)
  | Except.error _, Except.ok _ => isFalse (fun h => Except.noConfusion h)

/-- The characters Python's `str.strip()` removes (Python whitespace). -/
def pyWhitespace (c : Char) : Bool :=
  c = ' ' || c = '\t' || c = '\n' || c = '\r' || c = '\x0b' || c = '\x0c'

/-- Python `s.strip()`: drop leading and trailing whitespace. -/
def pyStrip (s : List Char) : List Char :=
  ((s.dropWhile pyWhitespace).reverse.dropWhile pyWhitespace).reverse

/-- Python's `in` operator on strings: `containsSub h n = true` iff `n`
occurs contiguously inside `h`. -/
def containsSub (haystack needle : List Char) : Bool :=
  match haystack with
  | [] => needle.isEmpty
  | _ :: t => needle.isPrefixOf haystack || containsSub t needle

/-- Characters stripped by `tag.strip("[]")` in the handler. -/
def isBracketChar (c : Char) : Bool :=
  c = '[' || c = ']'

/-- Python `tag.strip("[]")`: drop leading and trailing brackets. -/
def stripBrackets (s : List Char) : List Char :=
  ((s.dropWhile isBracketChar).reverse.dropWhile isBracketChar).reverse

/-- The closed marker vocabulary the handler scans for, in the order of
the Python `for` loops (`chat.py` lines 270 and 276). -/
def AGENT_TAGS : List (List Char) :=
  ["[[TECH]]".toList, "[[DATA]]".toList, "[[DOCS]]".toList,
   "[[MEMORY]]".toList, "[[TEAM]]".toList]

/-- The loop at `chat.py` 269-273: `agent_tag = "TEAM"`, then for each
tag in order, if the tag occurs anywhere in the content, take
`tag.strip("[]")` and `break`. -/
def parse_agent_tag_loop : List (List Char) → List Char → List Char
  | [], _ => "TEAM".toList
  | t :: ts, content =>
    if containsSub content t then stripBrackets t
    else parse_agent_tag_loop ts content

/-- Agent tag chosen by the handler from the raw model output. -/
def parse_agent_tag (content : List Char) : List Char :=
  parse_agent_tag_loop AGENT_TAGS content

/-- The loop at `chat.py` 275-279: for each tag in order, if the content
starts with the tag, drop the tag, `strip()` the rest and `break`. -/
def clean_content_loop : List (List Char) → List Char → List Char
  | [], content => content
  | t :: ts, content =>
    if t.isPrefixOf content then pyStrip (content.drop t.length)
    else clean_content_loop ts content

/-- Content cleanup performed by the handler on the raw model output. -/
def clean_content (content : List Char) : List Char :=
  clean_content_loop AGENT_TAGS content

/-- `ChatRequest.validate_message` (`chat.py` 185-191): reject an empty
or whitespace-only message, reject when the stripped message exceeds
5000 characters, otherwise return the stripped message. -/
def validate_message (v : List Char) : Except (List Char) (List Char) :=
  if pyStrip v = [] then Except.error "Message cannot be empty".toList
  else if 5000 < (pyStrip v).length then Except.error "Message too long".toList
  else Except.ok (pyStrip v)

/-- Truthiness of an optional environment string, as Python evaluates
`if POSTGRES_URL:` or `all([...])`: absent and empty are falsy. -/
def envTruthy : Option (List Char) → Bool
  | none => false
  | some s => !s.isEmpty

/-- The environment variables read by the configuration resolver
(`chat.py` 51, 60-63). -/
structure Env where
  POSTGRES_URL : Option (List Char)
  POSTGRES_USER : Option (List Char)
  POSTGRES_PASSWORD : Option (List Char)
  POSTGRES_HOST : Option (List Char)
  POSTGRES_DATABASE : Option (List Char)
deriving DecidableEq

/-- Python `s.replace(old, new)` on the suffix of `s`, with enough fuel
to cover the whole scan; structural recursion on the fuel keeps the
definition kernel-evaluable.  With a nonempty `old`, at each position
either `old` is a prefix and is replaced (the scan skips past it) or
one character is kept. -/
def pyReplaceAux (old new : List Char) : Nat → List Char → List Char
  | _, [] => []
  | 0, s => s
  | fuel + 1, c :: cs =>
    if old ≠ [] ∧ old.isPrefixOf (c :: cs) = true then
      new ++ pyReplaceAux old new fuel ((c :: cs).drop old.length)
    else
      c :: pyReplaceAux old new fuel cs

/-- Python `s.replace(old, new)`. -/
def pyReplace (s old new : List Char) : List Char :=
  pyReplaceAux old new s.length s

/-- The canonical connection scheme literal from `chat.py` 57. -/
def pgScheme : List Char := "postgresql://".toList

/-- The configuration resolver (`chat.py` 55-69): when `POSTGRES_URL`
is truthy it is passed through `replace("postgresql://",
"postgresql://")`; otherwise a URL is composed from the discrete
fields (defaults `postgres` for user and database, fixed port 5432)
when `all([db_user, db_password, db_host, db_name])` holds, and the
result is `None` ("no database configured") otherwise. -/
def SUPABASE_DB_URL (env : Env) : Option (List Char) :=
  if envTruthy env.POSTGRES_URL then
    some (pyReplace (env.POSTGRES_URL.getD []) pgScheme pgScheme)
  else
    let db_user := env.POSTGRES_USER.getD "postgres".toList
    let db_name := env.POSTGRES_DATABASE.getD "postgres".toList
    if !db_user.isEmpty && envTruthy env.POSTGRES_PASSWORD
        && envTruthy env.POSTGRES_HOST && !db_name.isEmpty then
      some (pgScheme ++ db_user ++ ':' :: env.POSTGRES_PASSWORD.getD []
            ++ '@' :: env.POSTGRES_HOST.getD [] ++ ":5432/".toList ++ db_name)
    else
      none

/-- An `agno` agent profile as constructed in `initialize_team`
(`chat.py` 125-156).  The model binding is the shared Groq model; what
matters for the claims is the profile data and whether knowledge search
is attached. -/
structure Agent where
  name : List Char
  role : List Char
  search_knowledge : Bool
  instructions : List (List Char)
deriving DecidableEq

/-- The `agno` team constructed in `initialize_team` (`chat.py`
163-174).  `instance_id` models Python object identity: each
construction yields a fresh id, so two results are the identical
instance exactly when their ids agree. -/
structure Team where
  instance_id : Nat
  members : List Agent
  instructions : List (List Char)
deriving DecidableEq

/-- Process-wide configuration consumed by `initialize_team`:
the two API keys, the resolved database URL, and the outcome of the
external `PgVector`/`Knowledge` construction (which the code wraps in
`try`/`except`). -/
structure Config where
  GROQ_API_KEY : Option (List Char)
  OPENAI_API_KEY : Option (List Char)
  SUPABASE_DB_URL : Option (List Char)
  kb_construction_fails : Bool
deriving DecidableEq

/-- The process-global mutable state of `chat.py`: `_team_cache` and
`_knowledge_base_cache` (lines 84-85), plus two ghost fields —
`constructions` counts how many times the construction side effects
(model and knowledge-base setup) have run, and `next_instance` feeds
fresh object identities. -/
structure ProcState where
  team_cache : Option Team
  kb_cache : Option Nat
  constructions : Nat
  next_instance : Nat
deriving DecidableEq

/-- `chat.py` 125-130. -/
def tech_agent : Agent :=
  ⟨"Tech".toList, "Developer".toList, false,
   ["Provide code in markdown.".toList, "Debug errors clearly.".toList]⟩

/-- `chat.py` 132-137. -/
def data_agent : Agent :=
  ⟨"Data".toList, "Analyst".toList, false,
   ["Analyze patterns.".toList, "Suggest visualizations.".toList]⟩

/-- `chat.py` 139-144. -/
def docs_agent : Agent :=
  ⟨"Docs".toList, "Writer".toList, false,
   ["Write clear summaries.".toList, "Use professional formatting.".toList]⟩

/-- `chat.py` 147-156; only built when the knowledge base exists. -/
def memory_agent : Agent :=
  ⟨"Memory".toList, "Historian".toList, true,
   ["Search the knowledge base for past context.".toList]⟩

/-- The team-level delegation policy (`chat.py` 166-173). -/
def team_policy : List (List Char) :=
  ["Analyze intent and delegate.".toList,
   "1. If context/history needed -> Memory Agent (if available)".toList,
   "2. If Code -> Tech Agent".toList,
   "3. If Analysis -> Data Agent".toList,
   "4. If Writing -> Docs Agent".toList,
   "PREFIX response with [[TECH]], [[DATA]], [[DOCS]], [[MEMORY]], or [[TEAM]].".toList]

/-- `initialize_team` (`chat.py` 87-179): return the cached team when
`_team_cache` is set; otherwise raise when `GROQ_API_KEY` is falsy,
else build the knowledge base (when the database URL and the OpenAI key
are truthy and the external construction does not throw), assemble the
members (Memory only with a knowledge base), construct the team, store
both caches and return them. -/
def init_team (cfg : Config) (st : ProcState) :
    Except (List Char) (Team × Option Nat) × ProcState :=
  match st.team_cache with
  | some t => (Except.ok (t, st.kb_cache), st)
  | none =>
    if envTruthy cfg.GROQ_API_KEY = false then
      (Except.error "GROQ_API_KEY is required".toList, st)
    else
      let kb : Option Nat :=
        if envTruthy cfg.SUPABASE_DB_URL && envTruthy cfg.OPENAI_API_KEY
            && !cfg.kb_construction_fails
        then some st.next_instance else none
      let members :=
        [tech_agent, data_agent, docs_agent]
          ++ (if kb.isSome then [memory_agent] else [])
      let team : Team := ⟨st.next_instance + 1, members, team_policy⟩
      (Except.ok (team, kb),
       { team_cache := some team, kb_cache := kb,
         constructions := st.constructions + 1,
         next_instance := st.next_instance + 2 })

/-- One row returned by the history query (`chat.py` 245-250); the
handler reads `m['role']` and `m['content']`. -/
structure ChatRow where
  role : List Char
  content : List Char
deriving DecidableEq

/-- The f-string `f"{m['role']}: {m['content']}"` (`chat.py` 256). -/
def fmt_row (m : ChatRow) : List Char :=
  m.role ++ ": ".toList ++ m.content

/-- Python `"\n".join`. -/
def joinNL : List (List Char) → List Char
  | [] => []
  | [x] => x
  | x :: y :: ys => x ++ '\n' :: joinNL (y :: ys)

/-- The history block built at `chat.py` 252-257 from the store's
newest-first rows: empty when there are no rows, otherwise the reversed
rows formatted one per line between the two sentinel lines. -/
def history_context_of (data : List ChatRow) : List Char :=
  if data.isEmpty then []
  else
    "\n<recent_chat_history>\n".toList
      ++ joinNL ((data.reverse).map fmt_row)
      ++ "\n</recent_chat_history>\n".toList

/-- A JSON value, used to state the exact shape of the HTTP bodies the
handler returns. -/
inductive JVal where
  | s (v : List Char)
  | arr (vs : List JVal)
  | obj (fields : List (List Char × JVal))

/-- The top-level keys of a JSON object. -/
def topKeys : JVal → List (List Char)
  | JVal.obj fs => fs.map Prod.fst
  | _ => []

/-- An HTTP response: status code and body.  For `HTTPException` the
body holds the `detail` object. -/
structure HttpResponse where
  status : Nat
  body : JVal

/-- One row inserted into the `chat_messages` table. -/
structure InsertedRow where
  conversation_id : List Char
  role : List Char
  content : List Char
deriving DecidableEq

/-- Everything observable about one handler invocation: the HTTP
response, the process state afterwards, the rows appended to the store,
and the prompts passed to `team.run` (the external model calls). -/
structure HandlerOut where
  response : HttpResponse
  state : ProcState
  inserted : List InsertedRow
  run_calls : List (List Char)

/-- The `HTTPException` detail built at `chat.py` 304-310. -/
def error_detail (e : List Char) : JVal :=
  JVal.obj [("error".toList, JVal.s "Internal server error".toList),
            ("message".toList, JVal.s (e.take 200))]

/-- The dict returned on success (`chat.py` 292-300). -/
def success_body (ai_content agent_tag : List Char) : JVal :=
  JVal.obj
    [("choices".toList,
      JVal.arr [JVal.obj
        [("message".toList,
          JVal.obj [("content".toList, JVal.s ai_content),
                    ("role".toList, JVal.s "ai".toList)])]]),
     ("agent".toList, JVal.s agent_tag)]

/-- The f-string `f"{history_context}\nUser Query: {req.message}"`
(`chat.py` 262). -/
def full_prompt_of (history_context message : List Char) : List Char :=
  history_context ++ "\nUser Query: ".toList ++ message

/-- `chat_handler` (`chat.py` 223-310) after request validation.
`supabase_up` is the truthiness of the module-level `supabase` client,
`hist_data` is what the history query returns (newest-first), and `run`
is `team.run`: prompt to response text, or a raised exception.  The
failed-insert `except` arms are not modelled separately: `supabase_up`
stands for a configured, working store.  When `initialize_team` or
`team.run` raises, the `except` at line 302 re-raises as
`HTTPException(500, {error, message})`. -/
def chat_handler (cfg : Config) (supabase_up : Bool) (hist_data : List ChatRow)
    (run : List Char → Except (List Char) (List Char))
    (message : List Char) (conversation_id : Option (List Char))
    (st : ProcState) : HandlerOut :=
  match init_team cfg st with
  | (Except.error e, st') => ⟨⟨500, error_detail e⟩, st', [], []⟩
  | (Except.ok _, st') =>
    let persist := supabase_up && envTruthy conversation_id
    let cid := conversation_id.getD []
    let log_user : List InsertedRow :=
      if persist then [⟨cid, "user".toList, message.take 1000⟩] else []
    let history_context : List Char :=
      if persist then history_context_of hist_data else []
    let prompt := full_prompt_of history_context message
    match run prompt with
    | Except.error e => ⟨⟨500, error_detail e⟩, st', log_user, [prompt]⟩
    | Except.ok raw =>
      let agent_tag := parse_agent_tag raw
      let ai_content := clean_content raw
      let log_ai : List InsertedRow :=
        if persist then [⟨cid, "ai".toList, ai_content.take 2000⟩] else []
      ⟨⟨200, success_body ai_content agent_tag⟩, st',
       log_user ++ log_ai, [prompt]⟩

/-- The body FastAPI produces for a pydantic validation failure. -/
def validation_error_body (e : List Char) : JVal :=
  JVal.obj [("detail".toList, JVal.s e)]

/-- The full endpoint: FastAPI validates the request body through
`ChatRequest.validate_message` before `chat_handler` runs; a validator
error becomes a 422 response with no side effects. -/
def api_chat (cfg : Config) (supabase_up : Bool) (hist_data : List ChatRow)
    (run : List Char → Except (List Char) (List Char))
    (raw_message : List Char) (conversation_id : Option (List Char))
    (st : ProcState) : HandlerOut :=
  match validate_message raw_message with
  | Except.error e => ⟨⟨422, validation_error_body e⟩, st, [], []⟩
  | Except.ok msg => chat_handler cfg supabase_up hist_data run msg conversation_id st

/-- A process configuration with only the Groq key set, used to
evaluate the handler on concrete inputs. -/
def demo_cfg : Config := ⟨some "k".toList, none, none, false⟩

/-- The state of a freshly started process: both caches empty, no
construction has run. -/
def fresh_state : ProcState := ⟨none, none, 0, 0⟩

/-- A six-row history as the store returns it (newest first); the
fourth row carries an attachment placeholder in its content. -/
def hist6 : List ChatRow :=
  [⟨"ai".toList, "m6".toList⟩,
   ⟨"user".toList, "m5".toList⟩,
   ⟨"ai".toList, "m4".toList⟩,
   ⟨"user".toList, "[Attached File: report.pdf]".toList⟩,
   ⟨"ai".toList, "m2".toList⟩,
   ⟨"user".toList, "m1".toList⟩]

/-- An environment carrying a direct connection string that needs every
normalization the spec describes: it has leading whitespace, uses the
legacy `postgres://` scheme, and lacks an `sslmode` parameter. -/
def env_direct : Env :=
  ⟨some " postgres://user:pw@host/db".toList, none, none, none, none⟩

/-- A message of 5001 characters whose first character is the only
whitespace in it. -/
def demo_long_message : List Char := ' ' :: List.replicate 5000 'b'

/-! ## Helper lemmas -/

theorem pyWhitespace_space : pyWhitespace ' ' = true := by decide

/-- `containsSub` decides the contiguous-substring relation. -/
theorem containsSub_iff (h n : List Char) : containsSub h n = true ↔ n <:+: h := by
  induction h with
  | nil =>
    simp [containsSub, List.isEmpty_iff]
  | cons c t ih =>
    simp only [containsSub, Bool.or_eq_true, List.isPrefixOf_iff_prefix, ih]
    constructor
    · rintro (hp | hi)
      · exact hp.isInfix
      · exact hi.trans (List.suffix_cons c t).isInfix
    · intro hi
      rcases hi with ⟨s, t', he⟩
      match s, he with
      | [], he => exact Or.inl ⟨t', by simpa using he⟩
      | c' :: s', he =>
        right
        rw [List.cons_append] at he
        exact ⟨s', t', by injection he with _ h2⟩

/-- Stripping never lengthens a string. -/
theorem pyStrip_length_le (s : List Char) : (pyStrip s).length ≤ s.length := by
  have h1 : (s.dropWhile pyWhitespace).length ≤ s.length :=
    (List.dropWhile_sublist _).length_le
  have h2 : ((s.dropWhile pyWhitespace).reverse.dropWhile pyWhitespace).length
      ≤ (s.dropWhile pyWhitespace).reverse.length :=
    (List.dropWhile_sublist _).length_le
  simp only [pyStrip, List.length_reverse] at *
  omega

/-- Stripping a run of one non-whitespace character followed by one
trailing space removes exactly the space. -/
theorem pyStrip_replicate_append_space (n : Nat) (c : Char)
    (hc : pyWhitespace c = false) :
    pyStrip (List.replicate n c ++ [' ']) = List.replicate n c := by
  cases n with
  | zero =>
    show pyStrip [' '] = []
    decide
  | succ m =>
    simp [pyStrip, List.dropWhile_append, List.dropWhile_replicate, hc,
      List.reverse_append, List.reverse_replicate, List.dropWhile_cons,
      pyWhitespace_space, List.isEmpty_iff, List.replicate_succ]

/-- Stripping one leading space from a run of a non-whitespace
character removes exactly the space. -/
theorem pyStrip_space_cons (n : Nat) (c : Char) (hc : pyWhitespace c = false) :
    pyStrip (' ' :: List.replicate n c) = List.replicate n c := by
  simp [pyStrip, List.dropWhile_cons, pyWhitespace_space,
    List.dropWhile_replicate, hc, List.reverse_replicate]

/-- The tag-detection loop is `find?` over the vocabulary in loop
order. -/
theorem parse_agent_tag_loop_eq (ts : List (List Char)) (c : List Char) :
    parse_agent_tag_loop ts c =
      (match ts.find? (fun t => containsSub c t) with
       | some t => stripBrackets t
       | none => "TEAM".toList) := by
  induction ts with
  | nil => rfl
  | cons t ts ih =>
    rw [parse_agent_tag_loop, List.find?_cons]
    by_cases h : containsSub c t <;> simp [h, ih]

/-- The tag-cleanup loop is `find?` over the vocabulary in loop
order, stripping only a leading occurrence. -/
theorem clean_content_loop_eq (ts : List (List Char)) (c : List Char) :
    clean_content_loop ts c =
      (match ts.find? (fun t => t.isPrefixOf c) with
       | some t => pyStrip (c.drop t.length)
       | none => c) := by
  induction ts with
  | nil => rfl
  | cons t ts ih =>
    rw [clean_content_loop, List.find?_cons]
    by_cases h : t.isPrefixOf c <;> simp [h, ih]

/-- Every marker in the vocabulary is nonempty. -/
theorem tags_pos : ∀ t ∈ AGENT_TAGS, 0 < t.length := by decide

/-- Cleanup leaves a string without a leading marker unchanged. -/
theorem clean_content_of_no_tag (c : List Char)
    (h : ∀ t ∈ AGENT_TAGS, t.isPrefixOf c = false) : clean_content c = c := by
  have hn : AGENT_TAGS.find? (fun t => t.isPrefixOf c) = none :=
    List.find?_eq_none.mpr (fun x hx => by rw [h x hx]; simp)
  rw [clean_content, clean_content_loop_eq, hn]

/-- Cleanup strictly shortens a string that begins with a marker. -/
theorem clean_content_length_lt (c : List Char)
    (hex : ∃ t ∈ AGENT_TAGS, t.isPrefixOf c = true) :
    (clean_content c).length < c.length := by
  obtain ⟨t', ht'⟩ := Option.isSome_iff_exists.mp (List.find?_isSome.mpr hex)
  have hp : t'.isPrefixOf c = true :=
    @List.find?_some (List Char) (fun t => t.isPrefixOf c) t' AGENT_TAGS ht'
  have hm : t' ∈ AGENT_TAGS :=
    @List.mem_of_find?_eq_some (List Char) (fun t => t.isPrefixOf c) t' AGENT_TAGS ht'
  have hpos : 0 < t'.length := tags_pos t' hm
  have hle : t'.length ≤ c.length := (List.isPrefixOf_iff_prefix.mp hp).length_le
  have he : clean_content c = pyStrip (c.drop t'.length) := by
    rw [clean_content, clean_content_loop_eq, ht']
  have h2 := pyStrip_length_le (c.drop t'.length)
  rw [List.length_drop] at h2
  rw [he]
  omega

/-- Replacing a pattern by itself is the identity (given enough fuel). -/
theorem pyReplaceAux_self (old : List Char) (fuel : Nat) :
    ∀ s : List Char, s.length ≤ fuel → pyReplaceAux old old fuel s = s := by
  induction fuel with
  | zero =>
    intro s hs
    match s with
    | [] => rfl
    | c :: cs => simp at hs
  | succ n ih =>
    intro s hs
    match s with
    | [] => rfl
    | c :: cs =>
      rw [pyReplaceAux]
      by_cases h : old ≠ [] ∧ old.isPrefixOf (c :: cs) = true
      · rw [if_pos h]
        have hp : old <+: (c :: cs) := List.isPrefixOf_iff_prefix.mp h.2
        have hdrop := List.prefix_iff_eq_append.mp hp
        have hlen : 0 < old.length := List.length_pos.mpr h.1
        have hrec : ((c :: cs).drop old.length).length ≤ n := by
          rw [List.length_drop]
          simp only [List.length_cons] at hs ⊢
          omega
        rw [ih _ hrec, hdrop]
      · rw [if_neg h]
        have hrec : cs.length ≤ n := by
          simp only [List.length_cons] at hs
          omega
        rw [ih cs hrec]

/-- Python `s.replace(t, t)` returns `s` unchanged. -/
theorem pyReplace_self (s t : List Char) : pyReplace s t t = s :=
  pyReplaceAux_self t s.length s le_rfl

/-- Every element of a list is a contiguous part of its
newline-join. -/
theorem infix_joinNL (x : List Char) (l : List (List Char)) (h : x ∈ l) :
    x <:+: joinNL l := by
  induction l with
  | nil => cases h
  | cons y ys ih =>
    cases ys with
    | nil =>
      have hx : x = y := by simpa using h
      subst hx
      exact List.infix_rfl
    | cons z zs =>
      rw [joinNL]
      rcases List.mem_cons.mp h with he | hm
      · subst he
        exact (List.prefix_append x _).isInfix
      · exact (ih hm).trans
          (((List.suffix_cons '\n' _).trans (List.suffix_append y _)).isInfix)

/-! ## Claim C2 -/

/-- Claim C2, counterexample: in `"[[DATA]] x [[TECH]]"` the first
marker occurring in the text is `[[DATA]]` (it is a prefix), yet
extraction returns `TECH`, and the matched `[[TECH]]` marker is still
present in the cleaned text. -/
theorem tag_extraction_first_in_text_fails :
    ("[[DATA]]".toList.isPrefixOf "[[DATA]] x [[TECH]]".toList = true)
  ∧ (parse_agent_tag "[[DATA]] x [[TECH]]".toList = "TECH".toList)
  ∧ (containsSub (clean_content "[[DATA]] x [[TECH]]".toList) "[[TECH]]".toList = true) := by
  decide

/-- Claim C2 (amended): extraction recognizes the closed vocabulary
anywhere in the text, but the winner is the first marker in the fixed
loop order TECH, DATA, DOCS, MEMORY, TEAM that occurs anywhere, not
the first occurring in the text; the cleanup step independently strips
the first marker in that same order that occurs as a prefix (then
strips whitespace), which need not be the matched marker; when no
marker is present the tag defaults to TEAM and the text is returned
unchanged. -/
theorem tag_extraction_priority_order (raw : List Char) :
    (parse_agent_tag raw =
      (match AGENT_TAGS.find? (fun t => containsSub raw t) with
       | some t => stripBrackets t
       | none => "TEAM".toList))
  ∧ (clean_content raw =
      (match AGENT_TAGS.find? (fun t => t.isPrefixOf raw) with
       | some t => pyStrip (raw.drop t.length)
       | none => raw))
  ∧ ((∀ t ∈ AGENT_TAGS, containsSub raw t = false) →
      parse_agent_tag raw = "TEAM".toList ∧ clean_content raw = raw) := by
  refine ⟨parse_agent_tag_loop_eq _ _, clean_content_loop_eq _ _, fun hnone => ?_⟩
  have h1 : AGENT_TAGS.find? (fun t => containsSub raw t) = none :=
    List.find?_eq_none.mpr (fun t ht => by rw [hnone t ht]; simp)
  have h2 : AGENT_TAGS.find? (fun t => t.isPrefixOf raw) = none := by
    refine List.find?_eq_none.mpr (fun t ht => ?_)
    intro hp
    have hc : containsSub raw t = true := by
      rw [containsSub_iff]
      exact (List.isPrefixOf_iff_prefix.mp hp).isInfix
    rw [hnone t ht] at hc
    exact Bool.false_ne_true hc
  constructor
  · rw [parse_agent_tag, parse_agent_tag_loop_eq, h1]
  · rw [clean_content, clean_content_loop_eq, h2]

/-- Witness for C2: on marker-free text the tag defaults to TEAM and
the text is unchanged. -/
theorem tag_extraction_priority_order_witness :
    parse_agent_tag "hello there".toList = "TEAM".toList
  ∧ clean_content "hello there".toList = "hello there".toList :=
  (tag_extraction_priority_order "hello there".toList).2.2 (by decide)

/-! ## Claim C5 -/

/-- Claim C5, counterexample: cleanup is not idempotent — on
`"[[TECH]][[DATA]] hi"` the first application strips only the leading
`[[TECH]]`, leaving `"[[DATA]] hi"`, and a second application strips
again. -/
theorem clean_not_idempotent_on_doubled_markers :
    clean_content (clean_content "[[TECH]][[DATA]] hi".toList)
      ≠ clean_content "[[TECH]][[DATA]] hi".toList := by
  decide

/-- Claim C5 (amended): one application of the marker-stripping step
removes at most one leading marker, so re-applying it to the cleaned
text is the identity exactly when that cleaned text does not itself
begin with a marker; when it does (e.g. doubled leading markers), the
second application strips again. -/
theorem clean_idempotent_iff_no_leading_marker (s : List Char) :
    clean_content (clean_content s) = clean_content s ↔
      (∀ t ∈ AGENT_TAGS, t.isPrefixOf (clean_content s) = false) := by
  constructor
  · intro heq
    by_contra hnot
    push_neg at hnot
    obtain ⟨t, ht, hp⟩ := hnot
    have hp' : t.isPrefixOf (clean_content s) = true := by
      cases hb : t.isPrefixOf (clean_content s)
      · exact absurd hb hp
      · rfl
    have hlt := clean_content_length_lt (clean_content s) ⟨t, ht, hp'⟩
    rw [heq] at hlt
    exact absurd hlt (lt_irrefl _)
  · intro hall
    exact clean_content_of_no_tag _ hall

/-- Witness for C5: cleanup is idempotent on a string whose cleaned
form has no leading marker. -/
theorem clean_idempotent_iff_no_leading_marker_witness :
    clean_content (clean_content "[[DOCS]] summary ready".toList)
      = clean_content "[[DOCS]] summary ready".toList :=
  (clean_idempotent_iff_no_leading_marker "[[DOCS]] summary ready".toList).mpr
    (by decide)

/-! ## Claim C4 -/

/-- Claim C4, counterexample: a message of 5001 characters — 5000
letters plus one trailing space — is longer than the configured
maximum of 5000, yet validation accepts it, because the bound is
checked on the stripped text. -/
theorem overlong_raw_message_accepted :
    ((List.replicate 5000 'a' ++ [' ']).length = 5001)
  ∧ (validate_message (List.replicate 5000 'a' ++ [' '])
      = Except.ok (List.replicate 5000 'a')) := by
  have hs := pyStrip_replicate_append_space 5000 'a' (by decide)
  have h1 : ¬ List.replicate 5000 'a' = ([] : List Char) := by
    intro hh
    have hlen := congrArg List.length hh
    rw [List.length_replicate] at hlen
    simp at hlen
  have h2 : ¬ 5000 < (List.replicate 5000 'a').length := by
    rw [List.length_replicate]
    omega
  constructor
  · simp only [List.length_append, List.length_replicate, List.length_singleton]
  · unfold validate_message
    rw [hs, if_neg h1, if_neg h2]

/-- Claim C4 (amended): a request whose message is empty,
whitespace-only, or whose whitespace-stripped form is longer than 5000
characters is rejected with a 422 validation error before the
orchestrator is dispatched: no model call is made, no log row is
written, and the process state is untouched. -/
theorem validation_rejects_on_stripped_bounds (cfg : Config) (sup : Bool)
    (hist : List ChatRow) (run : List Char → Except (List Char) (List Char))
    (raw : List Char) (cid : Option (List Char)) (st : ProcState)
    (h : pyStrip raw = [] ∨ 5000 < (pyStrip raw).length) :
    ((api_chat cfg sup hist run raw cid st).response.status = 422)
  ∧ ((api_chat cfg sup hist run raw cid st).run_calls = [])
  ∧ ((api_chat cfg sup hist run raw cid st).inserted = [])
  ∧ ((api_chat cfg sup hist run raw cid st).state = st) := by
  have hv : ∃ e, validate_message raw = Except.error e := by
    unfold validate_message
    by_cases h0 : pyStrip raw = []
    · rw [if_pos h0]
      exact ⟨_, rfl⟩
    · rcases h with h | h
      · exact absurd h h0
      · rw [if_neg h0, if_pos h]
        exact ⟨_, rfl⟩
  obtain ⟨e, he⟩ := hv
  unfold api_chat
  rw [he]
  exact ⟨rfl, rfl, rfl, rfl⟩

/-- Witness for C4 (amended): a whitespace-only message is rejected
with 422, no model call, no rows, state untouched. -/
theorem validation_rejects_on_stripped_bounds_witness :
    ((api_chat demo_cfg true [] (fun _ => Except.ok []) "   ".toList none
        fresh_state).response.status = 422)
  ∧ ((api_chat demo_cfg true [] (fun _ => Except.ok []) "   ".toList none
        fresh_state).run_calls = [])
  ∧ ((api_chat demo_cfg true [] (fun _ => Except.ok []) "   ".toList none
        fresh_state).inserted = [])
  ∧ ((api_chat demo_cfg true [] (fun _ => Except.ok []) "   ".toList none
        fresh_state).state = fresh_state) :=
  validation_rejects_on_stripped_bounds demo_cfg true [] (fun _ => Except.ok [])
    "   ".toList none fresh_state (Or.inl (by decide))

/-! ## Claim C7 -/

/-- Claim C7, counterexample: with a direct connection string that has
leading whitespace, the legacy `postgres://` scheme and no `sslmode`
parameter, the resolver returns it verbatim: whitespace intact,
scheme unchanged, no SSL parameter appended. -/
theorem db_url_not_normalized :
    (SUPABASE_DB_URL env_direct = some " postgres://user:pw@host/db".toList)
  ∧ (' ' ∈ " postgres://user:pw@host/db".toList)
  ∧ (containsSub " postgres://user:pw@host/db".toList "sslmode".toList = false)
  ∧ ("postgresql://".toList.isPrefixOf " postgres://user:pw@host/db".toList = false) := by
  refine ⟨?_, by decide, by decide, by decide⟩
  show SUPABASE_DB_URL env_direct = env_direct.POSTGRES_URL
  simp [SUPABASE_DB_URL, env_direct, envTruthy, pyReplace_self]

/-- Claim C7 (amended): when a direct connection string is present the
resolver passes it through unchanged — the `replace` call maps the
canonical scheme to itself, so no whitespace is stripped, no legacy
scheme is rewritten and no SSL parameter is appended; when no direct
string is present it composes a URL from the discrete fields with
defaults `postgres` for user and database and a fixed port 5432, and
yields `none` ("no database configured", not an error) when a required
field is missing. -/
theorem db_url_resolver_behavior (env : Env) :
    (envTruthy env.POSTGRES_URL = true → SUPABASE_DB_URL env = env.POSTGRES_URL)
  ∧ (envTruthy env.POSTGRES_URL = false →
      (!(env.POSTGRES_USER.getD "postgres".toList).isEmpty
          && envTruthy env.POSTGRES_PASSWORD && envTruthy env.POSTGRES_HOST
          && !(env.POSTGRES_DATABASE.getD "postgres".toList).isEmpty) = true →
      SUPABASE_DB_URL env =
        some (pgScheme ++ env.POSTGRES_USER.getD "postgres".toList
              ++ ':' :: env.POSTGRES_PASSWORD.getD []
              ++ '@' :: env.POSTGRES_HOST.getD []
              ++ ":5432/".toList ++ env.POSTGRES_DATABASE.getD "postgres".toList))
  ∧ (envTruthy env.POSTGRES_URL = false →
      (!(env.POSTGRES_USER.getD "postgres".toList).isEmpty
          && envTruthy env.POSTGRES_PASSWORD && envTruthy env.POSTGRES_HOST
          && !(env.POSTGRES_DATABASE.getD "postgres".toList).isEmpty) = false →
      SUPABASE_DB_URL env = none) := by
  refine ⟨fun h => ?_, fun h hc => ?_, fun h hc => ?_⟩
  · simp only [SUPABASE_DB_URL]
    rw [if_pos h]
    cases hu : env.POSTGRES_URL with
    | none => rw [hu] at h; simp [envTruthy] at h
    | some u => simp only [hu, Option.getD_some, pyReplace_self]
  · have hcond : ¬ (envTruthy env.POSTGRES_URL = true) := by
      rw [h]
      exact Bool.false_ne_true
    simp only [SUPABASE_DB_URL]
    rw [if_neg hcond, if_pos hc]
  · have hcond : ¬ (envTruthy env.POSTGRES_URL = true) := by
      rw [h]
      exact Bool.false_ne_true
    have hc2 : ¬ ((!(env.POSTGRES_USER.getD "postgres".toList).isEmpty
        && envTruthy env.POSTGRES_PASSWORD && envTruthy env.POSTGRES_HOST
        && !(env.POSTGRES_DATABASE.getD "postgres".toList).isEmpty) = true) := by
      rw [hc]
      exact Bool.false_ne_true
    simp only [SUPABASE_DB_URL]
    rw [if_neg hcond, if_neg hc2]

/-- Witness for C7: on the concrete direct-string environment the
resolver passes the string through. -/
theorem db_url_resolver_behavior_witness :
    SUPABASE_DB_URL env_direct = env_direct.POSTGRES_URL :=
  (db_url_resolver_behavior env_direct).1 (by decide)

/-! ## Claim C1 -/

/-- Claim C1, counterexample: with a working configuration and a model
call that throws, the handler responds with HTTP status 500, not with
a 200 response carrying an error-tagged payload. -/
theorem model_call_failure_not_200_at_boom :
    ((chat_handler demo_cfg false [] (fun _ => Except.error "boom".toList)
        "hi2".toList none fresh_state).response.status = 500)
  ∧ ((chat_handler demo_cfg false [] (fun _ => Except.error "boom".toList)
        "hi2".toList none fresh_state).response.status ≠ 200) := by
  decide

/-- Claim C1 (amended): when the underlying model call (`team.run`)
throws, the handler catches the failure at the boundary but converts it
into an `HTTPException` with status 500 and an `{error, message}`
detail (message truncated to 200 characters) — a non-200 transport
failure, not a 200 response with an error-tagged `{content, agent}`
payload. -/
theorem model_call_failure_returns_500 (cfg : Config) (sup : Bool)
    (hist : List ChatRow) (msg : List Char) (cid : Option (List Char))
    (st : ProcState) (e : List Char)
    (hinit : (init_team cfg st).1.isOk = true) :
    ((chat_handler cfg sup hist (fun _ => Except.error e) msg cid st).response.status
      = 500)
  ∧ ((chat_handler cfg sup hist (fun _ => Except.error e) msg cid st).response.body
      = error_detail e) := by
  rcases hr : init_team cfg st with ⟨res, st'⟩
  cases res with
  | error e' =>
    rw [hr] at hinit
    simp [Except.isOk, Except.toBool] at hinit
  | ok tk =>
    unfold chat_handler
    rw [hr]
    exact ⟨rfl, rfl⟩

/-- Witness for C1 (amended): a concrete throwing model call yields the
500 error detail. -/
theorem model_call_failure_returns_500_witness :
    ((chat_handler demo_cfg true [] (fun _ => Except.error "kaput".toList)
        "hello".toList none fresh_state).response.status = 500)
  ∧ ((chat_handler demo_cfg true [] (fun _ => Except.error "kaput".toList)
        "hello".toList none fresh_state).response.body
      = error_detail "kaput".toList) :=
  model_call_failure_returns_500 demo_cfg true [] "hello".toList none fresh_state
    "kaput".toList (by decide)

/-! ## Claim C3 -/

/-- Claim C3, counterexample: a successful request yields status 200,
but the body's top-level keys are `choices` and `agent` — there is no
top-level `content` field; the cleaned text sits nested at
`choices[0].message.content`. -/
theorem success_body_not_flat_content_agent :
    ((chat_handler demo_cfg false [] (fun _ => Except.ok "[[DATA]] trend".toList)
        "analyze".toList none fresh_state).response.status = 200)
  ∧ (topKeys (chat_handler demo_cfg false [] (fun _ => Except.ok "[[DATA]] trend".toList)
        "analyze".toList none fresh_state).response.body
      = ["choices".toList, "agent".toList])
  ∧ (¬ ("content".toList ∈ topKeys (chat_handler demo_cfg false []
        (fun _ => Except.ok "[[DATA]] trend".toList)
        "analyze".toList none fresh_state).response.body)) := by
  decide

/-- Claim C3 (amended): on success the handler returns 200 with body
`{choices: [{message: {content: cleanedText, role: "ai"}}], agent:
tag}`: the cleaned text and the routing tag are present, but the text
is nested inside `choices[0].message.content` rather than being a
top-level `content` field. -/
theorem success_body_choices_shape (cfg : Config) (sup : Bool)
    (hist : List ChatRow) (msg : List Char) (cid : Option (List Char))
    (st : ProcState) (raw : List Char)
    (hinit : (init_team cfg st).1.isOk = true) :
    ((chat_handler cfg sup hist (fun _ => Except.ok raw) msg cid st).response.status
      = 200)
  ∧ ((chat_handler cfg sup hist (fun _ => Except.ok raw) msg cid st).response.body
      = success_body (clean_content raw) (parse_agent_tag raw)) := by
  rcases hr : init_team cfg st with ⟨res, st'⟩
  cases res with
  | error e' =>
    rw [hr] at hinit
    simp [Except.isOk, Except.toBool] at hinit
  | ok tk =>
    unfold chat_handler
    rw [hr]
    exact ⟨rfl, rfl⟩

/-- Witness for C3 (amended): concrete successful call. -/
theorem success_body_choices_shape_witness :
    ((chat_handler demo_cfg false [] (fun _ => Except.ok "[[TEAM]] hi there".toList)
        "greet".toList none fresh_state).response.status = 200)
  ∧ ((chat_handler demo_cfg false [] (fun _ => Except.ok "[[TEAM]] hi there".toList)
        "greet".toList none fresh_state).response.body
      = success_body (clean_content "[[TEAM]] hi there".toList)
          (parse_agent_tag "[[TEAM]] hi there".toList)) :=
  success_body_choices_shape demo_cfg false [] "greet".toList none fresh_state
    "[[TEAM]] hi there".toList (by decide)

/-! ## Claim C8 -/

/-- A call that finds the cache set returns the cached pair and leaves
the state untouched. -/
theorem init_team_cached (cfg : Config) (st : ProcState) (t : Team)
    (h : st.team_cache = some t) :
    init_team cfg st = (Except.ok (t, st.kb_cache), st) := by
  unfold init_team
  rw [h]

/-- A call on an empty cache with the Groq key present constructs and
caches the team, bumping the construction counter. -/
theorem init_team_fresh_succeeds (cfg : Config) (st : ProcState)
    (hcache : st.team_cache = none)
    (hkey : envTruthy cfg.GROQ_API_KEY = true) :
    ∃ t kb, init_team cfg st =
      (Except.ok (t, kb),
       ⟨some t, kb, st.constructions + 1, st.next_instance + 2⟩) := by
  have hcnd : ¬ (envTruthy cfg.GROQ_API_KEY = false) := by
    rw [hkey]
    exact fun hh => Bool.false_ne_true hh.symm
  unfold init_team
  rw [hcache, if_neg hcnd]
  exact ⟨_, _, rfl⟩

/-- Claim C8: `initialize_team` is memoized — from a fresh process
state, a second sequential call returns exactly the first call's
result pair (the identical cached team instance), changes nothing, and
the construction side effects have run exactly once. -/
theorem init_team_memoized (cfg : Config) (st : ProcState)
    (hcache : st.team_cache = none) (hcnt : st.constructions = 0)
    (hkey : envTruthy cfg.GROQ_API_KEY = true) :
    ((init_team cfg (init_team cfg st).2).1 = (init_team cfg st).1)
  ∧ ((init_team cfg (init_team cfg st).2).2 = (init_team cfg st).2)
  ∧ ((init_team cfg st).2.constructions = 1)
  ∧ ((init_team cfg (init_team cfg st).2).2.constructions = 1) := by
  obtain ⟨t, kb, h1⟩ := init_team_fresh_succeeds cfg st hcache hkey
  have h2 : init_team cfg
      (⟨some t, kb, st.constructions + 1, st.next_instance + 2⟩ : ProcState)
      = (Except.ok (t, kb),
         ⟨some t, kb, st.constructions + 1, st.next_instance + 2⟩) :=
    init_team_cached cfg _ t rfl
  refine ⟨?_, ?_, ?_, ?_⟩ <;> simp only [h1, h2] <;> simp [hcnt]

/-- Witness for C8: two sequential calls on the demo configuration. -/
theorem init_team_memoized_witness :
    ((init_team demo_cfg (init_team demo_cfg fresh_state).2).1
      = (init_team demo_cfg fresh_state).1)
  ∧ ((init_team demo_cfg (init_team demo_cfg fresh_state).2).2
      = (init_team demo_cfg fresh_state).2)
  ∧ ((init_team demo_cfg fresh_state).2.constructions = 1)
  ∧ ((init_team demo_cfg (init_team demo_cfg fresh_state).2).2.constructions = 1) :=
  init_team_memoized demo_cfg fresh_state rfl rfl (by decide)

/-! ## Claim C9 -/

/-- Claim C9, counterexample: on a successful persisted request the two
appended rows have roles `user` then `ai` — no row uses the role
`assistant`, so the roles are not drawn from {user, assistant}. -/
theorem assistant_row_role_is_ai :
    ((chat_handler demo_cfg true [] (fun _ => Except.ok "[[DOCS]] summary".toList)
        "write".toList (some "c9".toList) fresh_state).inserted.map InsertedRow.role
      = ["user".toList, "ai".toList])
  ∧ (¬ ("assistant".toList ∈ (chat_handler demo_cfg true []
        (fun _ => Except.ok "[[DOCS]] summary".toList)
        "write".toList (some "c9".toList) fresh_state).inserted.map InsertedRow.role)) := by
  decide

/-- Claim C9 (amended): for every successful chat request carrying a
(nonempty) conversation id with persistence configured, exactly two
rows are appended, in order: first the user turn (content truncated to
1000 characters), then the model's turn recorded with role `ai` (not
`assistant`), content truncated to 2000 characters. -/
theorem two_rows_user_then_ai (cfg : Config) (hist : List ChatRow)
    (st : ProcState) (cid msg raw : List Char)
    (hcid : cid ≠ [])
    (hinit : (init_team cfg st).1.isOk = true) :
    (chat_handler cfg true hist (fun _ => Except.ok raw) msg (some cid) st).inserted
      = [⟨cid, "user".toList, msg.take 1000⟩,
         ⟨cid, "ai".toList, (clean_content raw).take 2000⟩] := by
  have hemp : cid.isEmpty = false := by
    cases hc : cid.isEmpty
    · rfl
    · exact absurd (List.isEmpty_iff.mp hc) hcid
  rcases hr : init_team cfg st with ⟨res, st'⟩
  cases res with
  | error e' =>
    rw [hr] at hinit
    simp [Except.isOk, Except.toBool] at hinit
  | ok tk =>
    unfold chat_handler
    rw [hr]
    simp [envTruthy, hemp]

/-- Witness for C9 (amended): a concrete persisted request appends the
user row then the `ai` row. -/
theorem two_rows_user_then_ai_witness :
    (chat_handler demo_cfg true [] (fun _ => Except.ok "[[TECH]] fix".toList)
        "help me".toList (some "c1".toList) fresh_state).inserted
      = [⟨"c1".toList, "user".toList, "help me".toList.take 1000⟩,
         ⟨"c1".toList, "ai".toList, (clean_content "[[TECH]] fix".toList).take 2000⟩] :=
  two_rows_user_then_ai demo_cfg [] fresh_state "c1".toList "help me".toList
    "[[TECH]] fix".toList (by decide) (by decide)

/-! ## Claim C10 -/

/-- Claim C10: for every accepted request the message used downstream
is the whitespace-stripped form of the submitted message — it is what
validation returns, what the prompt interpolates, and what the user log
row stores (truncated to 1000) — and the 5000-character bound is
checked on the stripped text, so acceptance depends only on the
stripped form. -/
theorem downstream_uses_stripped_message (cfg : Config) (sup : Bool)
    (hist : List ChatRow) (run : List Char → Except (List Char) (List Char))
    (raw : List Char) (cid : Option (List Char)) (st : ProcState)
    (h1 : pyStrip raw ≠ []) (h2 : (pyStrip raw).length ≤ 5000) :
    (validate_message raw = Except.ok (pyStrip raw))
  ∧ (api_chat cfg sup hist run raw cid st
      = chat_handler cfg sup hist run (pyStrip raw) cid st)
  ∧ (∀ p ∈ (api_chat cfg sup hist run raw cid st).run_calls,
      p = full_prompt_of
            (if sup && envTruthy cid then history_context_of hist else [])
            (pyStrip raw))
  ∧ (∀ r ∈ (api_chat cfg sup hist run raw cid st).inserted,
      r.role = "user".toList → r.content = (pyStrip raw).take 1000) := by
  have hv : validate_message raw = Except.ok (pyStrip raw) := by
    unfold validate_message
    rw [if_neg h1, if_neg (by omega)]
  have ha : api_chat cfg sup hist run raw cid st
      = chat_handler cfg sup hist run (pyStrip raw) cid st := by
    unfold api_chat
    rw [hv]
  refine ⟨hv, ha, ?_, ?_⟩
  · intro p hp
    rw [ha] at hp
    rcases hr : init_team cfg st with ⟨res, st'⟩
    cases res with
    | error e =>
      unfold chat_handler at hp
      rw [hr] at hp
      exact absurd hp (List.not_mem_nil p)
    | ok tk =>
      unfold chat_handler at hp
      rw [hr] at hp
      dsimp only at hp
      rcases hrun : run (full_prompt_of
          (if sup && envTruthy cid then history_context_of hist else [])
          (pyStrip raw)) with e | out <;>
        rw [hrun] at hp <;>
        exact List.mem_singleton.mp hp
  · intro r hp hrole
    rw [ha] at hp
    rcases hr : init_team cfg st with ⟨res, st'⟩
    cases res with
    | error e =>
      unfold chat_handler at hp
      rw [hr] at hp
      exact absurd hp (List.not_mem_nil r)
    | ok tk =>
      unfold chat_handler at hp
      rw [hr] at hp
      dsimp only at hp
      rcases hrun : run (full_prompt_of
          (if sup && envTruthy cid then history_context_of hist else [])
          (pyStrip raw)) with e | out
      · rw [hrun] at hp
        dsimp only at hp
        by_cases hc : (sup && envTruthy cid) = true
        · rw [if_pos hc] at hp
          have he := List.mem_singleton.mp hp
          subst he
          rfl
        · rw [if_neg hc] at hp
          exact absurd hp (List.not_mem_nil r)
      · rw [hrun] at hp
        dsimp only at hp
        by_cases hc : (sup && envTruthy cid) = true
        · rw [if_pos hc, if_pos hc] at hp
          rcases List.mem_append.mp hp with hu | hai
          · have he := List.mem_singleton.mp hu
            subst he
            rfl
          · have he := List.mem_singleton.mp hai
            subst he
            dsimp only at hrole
            exact absurd hrole (by decide)
        · rw [if_neg hc, if_neg hc] at hp
          exact absurd hp (by simp)

/-- Witness for C10: the 5001-character message whose only whitespace
is its leading space is accepted, and validation returns its stripped
form. -/
theorem downstream_uses_stripped_message_witness :
    (demo_long_message.length = 5001)
  ∧ (validate_message demo_long_message = Except.ok (pyStrip demo_long_message)) :=
  ⟨by simp only [demo_long_message, List.length_cons, List.length_replicate],
   (downstream_uses_stripped_message demo_cfg false [] (fun _ => Except.ok [])
      demo_long_message none fresh_state
      (by
        simp only [demo_long_message, pyStrip_space_cons 5000 'b' (by decide)]
        intro hh
        have hlen := congrArg List.length hh
        rw [List.length_replicate] at hlen
        simp at hlen)
      (by
        simp only [demo_long_message, pyStrip_space_cons 5000 'b' (by decide)]
        rw [List.length_replicate])).1⟩

/-! ## Claim C6 -/

/-- Claim C6, counterexample: the handler interpolates history rows
verbatim — a row whose content carries an attachment placeholder
appears unredacted in the history block. -/
theorem history_placeholder_not_redacted :
    (hist6.length = 6)
  ∧ ((hist6.reverse.map fmt_row).length = 6)
  ∧ (containsSub (history_context_of hist6) "[Attached File: report.pdf]".toList
      = true) := by
  decide

/-- Claim C6 (amended): given store rows newest-first, the handler's
history block presents them oldest-first (the reversal), with length
preserved, and every row is interpolated verbatim as `role: content` —
no redaction of attachment placeholders takes place. -/
theorem history_oldest_first_verbatim (data : List ChatRow) (r : ChatRow)
    (h : r ∈ data) :
    ((data.reverse.map fmt_row).length = data.length)
  ∧ (∀ i : Nat, i < data.length →
      (data.reverse.map fmt_row)[i]? = (data[data.length - 1 - i]?).map fmt_row)
  ∧ (fmt_row r <:+: history_context_of data)
  ∧ (r.content <:+: history_context_of data) := by
  have hne : data.isEmpty = false := by
    cases data
    · cases h
    · rfl
  have hmem : fmt_row r ∈ data.reverse.map fmt_row :=
    List.mem_map_of_mem _ (List.mem_reverse.mpr h)
  have hinf : fmt_row r <:+: history_context_of data := by
    rw [history_context_of, if_neg (by rw [hne]; exact Bool.false_ne_true)]
    exact (infix_joinNL _ _ hmem).trans (List.infix_append _ _ _)
  refine ⟨by simp, fun i hi => ?_, hinf, ?_⟩
  · rw [List.getElem?_map, List.getElem?_reverse (by simpa using hi)]
  · exact (List.suffix_append _ _).isInfix.trans hinf

/-- Witness for C6 (amended): the oldest row of the concrete six-row
history appears in the block, and length is preserved. -/
theorem history_oldest_first_verbatim_witness :
    ((hist6.reverse.map fmt_row).length = hist6.length)
  ∧ (fmt_row ⟨"user".toList, "m1".toList⟩ <:+: history_context_of hist6) :=
  ⟨(history_oldest_first_verbatim hist6 ⟨"user".toList, "m1".toList⟩ (by decide)).1,
   (history_oldest_first_verbatim hist6 ⟨"user".toList, "m1".toList⟩ (by decide)).2.2.1⟩

end ChatApi
